import Mathlib

/-!
Link shortener (`link-shortener/solution.go`).

A shallow embedding of the router of the link shortener: the alias table,
the dispatch of `ServeHTTP`, and the two handlers `handleCreateURLAliasPair`
and `handleRedirect`, with the responses they write.

The handlers call Go's standard library (`net/url`, `net/http`, `strings`).
`strings.TrimLeft`, `url.Values.Get` and `fmt.Sprintf` are embedded directly.
So is `http.Redirect` as far as the `Location` header goes, with `path.Split`,
`path.Clean` and `hexEscapeNonASCII`.  `url.Parse` and the body `http.Redirect`
writes are taken as a parameter (`Lib`), so every theorem below holds for
whatever these two compute.  What a request carries is what the handlers read
from it: its method, `URL.Path`, `URL.Query()`, and the outcome of `ParseForm()`
(its error and the resulting `Form`).
-/

namespace LinkShortener

/-! ## Data model -/

/-- The type `url.Values` (`map[string][]string`): the values of each key, none for an
absent key. -/
abbrev Values := String → List String

/-- Method `Values.Get`: the first value of the key, the empty string when there is none. -/
def Get (v : Values) (key : String) : String :=
  match v key with
  | [] => ""
  | x :: _ => x

/-- What the handlers read from a `*http.Request`. -/
structure Request where
  /-- Field `req.Method` -/
  Method : String
  /-- Field `req.URL.Path` -/
  Path : String
  /-- Result of `req.URL.Query()` -/
  Query : Values
  /-- Error returned by `req.ParseForm()`, `none` for a nil error -/
  ParseForm : Option String
  /-- Field `req.Form` once `req.ParseForm()` has run -/
  Form : Values

/-- What the handlers write to the `http.ResponseWriter`: the status code, the
`Location` header if one is set, and the body. -/
structure Response where
  status : Nat
  location : Option String
  body : String
deriving DecidableEq

/-- The router: its alias table `map[string]string`, a key being absent (`none`) or
mapped to one url. -/
structure router where
  urlAliasPairs : String → Option String

/-- The router made by `newRouter`: an empty table. -/
def newRouter : router := ⟨fun _ => none⟩

/-- What `http.Redirect` reads of the `*url.URL` that `url.Parse` returns. -/
structure URL where
  /-- Field `Scheme` is not the empty string -/
  hasScheme : Bool
  /-- Field `Host` is not the empty string -/
  hasHost : Bool
deriving DecidableEq

/-- The library functions whose bodies are taken as a parameter. -/
structure Lib where
  /-- Function `url.Parse`: its error, or what is read of the URL it returns. -/
  Parse : String → Except String URL
  /-- The body `http.Redirect` writes, from the request method, the target as it is
  written and the code. -/
  redirectBody : String → String → Nat → String

def MethodPost : String := "POST"
def StatusCreated : Nat := 201
def StatusMovedPermanently : Nat := 301
def StatusBadRequest : Nat := 400
def StatusNotFound : Nat := 404
def StatusMethodNotAllowed : Nat := 405
def StatusInternalServerError : Nat := 500

/-! ## Library functions embedded directly -/

/-- Function `strings.TrimLeft`: the string without its leading characters that occur in
the cutset. -/
def TrimLeft (s cutset : String) : String :=
  ⟨s.data.dropWhile (fun c => cutset.data.contains c)⟩

/-- The part of a string before the first occurrence of a character (`strings.Cut`). -/
def cutBefore (sep : Char) (s : List Char) : List Char :=
  s.takeWhile (fun c => c != sep)

/-- The part of a string from the first occurrence of a character on, that character
included; empty when it does not occur. -/
def cutFrom (sep : Char) (s : List Char) : List Char :=
  s.dropWhile (fun c => c != sep)

/-- Function `path.Split`: the path up to and including its last slash. -/
def splitDir (p : List Char) : List Char :=
  (p.reverse.dropWhile (fun c => c != '/')).reverse

/-- The elements of a path between its slashes. -/
def pathElems : List Char → List Char → List (List Char)
  | cur, [] => [cur.reverse]
  | cur, c :: cs => if c = '/' then cur.reverse :: pathElems [] cs else pathElems (c :: cur) cs

/-- One step of `path.Clean` over the elements kept so far (last one first). -/
def cleanStep (rooted : Bool) (kept : List (List Char)) (e : List Char) : List (List Char) :=
  if e = [] ∨ e = ['.'] then kept
  else if e = ['.', '.'] then
    match kept with
    | [] => if rooted then [] else [e]
    | k :: ks => if k = ['.', '.'] then e :: k :: ks else ks
  else e :: kept

/-- Function `path.Clean`: the shortest equivalent path. -/
def cleanPath (p : List Char) : List Char :=
  let rooted := p.head? = some '/'
  let kept := ((pathElems [] p).foldl (cleanStep rooted) []).reverse
  let body := List.intercalate ['/'] kept
  if rooted then '/' :: body else if body = [] then ['.'] else body

/-- The UTF-8 bytes of a character. -/
def utf8Bytes (c : Char) : List Nat :=
  let n := c.toNat
  if n < 0x80 then [n]
  else if n < 0x800 then [0xC0 + n / 64, 0x80 + n % 64]
  else if n < 0x10000 then [0xE0 + n / 4096, 0x80 + n / 64 % 64, 0x80 + n % 64]
  else [0xF0 + n / 262144, 0x80 + n / 4096 % 64, 0x80 + n / 64 % 64, 0x80 + n % 64]

/-- A hexadecimal digit, in lower case. -/
def hexDigit (n : Nat) : Char :=
  if n < 10 then Char.ofNat ('0'.toNat + n) else Char.ofNat ('a'.toNat + (n - 10))

/-- Function `hexEscapeNonASCII` of `net/http`: every byte from 0x80 on becomes a percent
sign and its two hexadecimal digits. -/
def hexEscapeNonASCII (s : List Char) : List Char :=
  s.flatMap (fun c =>
    if c.toNat < 0x80 then [c]
    else (utf8Bytes c).flatMap (fun b => ['%', hexDigit (b / 16), hexDigit (b % 16)]))

/-- The rewriting `http.Redirect` applies to a target with neither scheme nor host: it
is made absolute against the directory of the request path and cleaned, its query and
a trailing slash kept. -/
def rewriteTarget (oldpath0 url0 : List Char) : List Char :=
  let oldpath := if oldpath0 = [] then ['/'] else oldpath0
  let url1 := if url0.head? ≠ some '/' then splitDir oldpath ++ url0 else url0
  let url2 := cutBefore '?' url1
  let query := cutFrom '?' url1
  let url3 := cleanPath url2
  let url4 := if url2.getLast? = some '/' ∧ url3.getLast? ≠ some '/' then url3 ++ ['/'] else url3
  url4 ++ query

/-- The target as `http.Redirect` writes it: rewritten when `url.Parse` succeeds and
finds neither scheme nor host in it, unchanged otherwise. -/
def redirectTarget (L : Lib) (oldpath url : String) : String :=
  match L.Parse url with
  | .ok u => if !u.hasScheme && !u.hasHost then ⟨rewriteTarget oldpath.data url.data⟩ else url
  | .error _ => url

/-- Function `http.Redirect`: writes the `Location` header, the code and the body. -/
def Redirect (L : Lib) (req : Request) (url : String) (code : Nat) : Response :=
  { status := code
    location := some ⟨hexEscapeNonASCII (redirectTarget L req.Path url).data⟩
    body := L.redirectBody req.Method (redirectTarget L req.Path url) code }

/-! ## Operations -/

/-- Method `handleCreateURLAliasPair`. -/
def handleCreateURLAliasPair (L : Lib) (r : router) (req : Request) : router × Response :=
  if req.Method ≠ MethodPost then
    (r, ⟨StatusMethodNotAllowed, none, ""⟩)
  else
    match req.ParseForm with
    | some err => (r, ⟨StatusInternalServerError, none, err⟩)
    | none =>
      if Get req.Form "alias" = "" then
        (r, ⟨StatusBadRequest, none, "invalid alias: " ++ Get req.Form "alias"⟩)
      else
        match L.Parse (Get req.Form "url") with
        | .error _ =>
          (r, ⟨StatusBadRequest, none, "invalid url: " ++ Get req.Query "url"⟩)
        | .ok _ =>
          (⟨Function.update r.urlAliasPairs (Get req.Form "alias") (some (Get req.Form "url"))⟩,
           ⟨StatusCreated, none,
            "/" ++ Get req.Form "alias" ++ " redirects to " ++ Get req.Form "url"⟩)

/-- Method `handleRedirect`. -/
def handleRedirect (L : Lib) (r : router) (req : Request) : router × Response :=
  match r.urlAliasPairs (TrimLeft req.Path "/") with
  | none => (r, ⟨StatusNotFound, none, "invalid alias"⟩)
  | some redirectURL => (r, Redirect L req redirectURL StatusMovedPermanently)

/-- Method `ServeHTTP`: the table after the request and the response. -/
def ServeHTTP (L : Lib) (r : router) (req : Request) : router × Response :=
  if req.Path = "/create" then handleCreateURLAliasPair L r req
  else handleRedirect L r req

/-! ## A reference instance of the library

The theorems hold for every `Lib`.  To evaluate the handlers on concrete
requests the instance `stdLib` follows `url.Parse` of Go's `net/url`: the
control characters, the scheme, the authority (userinfo, host, port), the
escapes of the path and of the fragment.  The text inside a bracketed IP
literal is checked for its escapes only.  The text of an error, which no
handler reads, is not reproduced.
-/

/-- Function `stringContainsCTLByte` of `net/url`: a byte below 0x20 or equal to 0x7f. -/
def stringContainsCTLByte (s : List Char) : Bool :=
  s.any (fun c => c.toNat < 32 || c.toNat == 127)

/-- Loop of `getScheme` of `net/url`, `acc` holding the characters already read (in
reverse): the scheme and the rest, or none for the error of a leading colon. -/
def getSchemeLoop (raw : List Char) : List Char → List Char → Option (List Char × List Char)
  | _, [] => some ([], raw)
  | acc, c :: cs =>
    if ('a'.toNat ≤ c.toNat ∧ c.toNat ≤ 'z'.toNat) ∨ ('A'.toNat ≤ c.toNat ∧ c.toNat ≤ 'Z'.toNat) then
      getSchemeLoop raw (c :: acc) cs
    else if ('0'.toNat ≤ c.toNat ∧ c.toNat ≤ '9'.toNat) ∨ c = '+' ∨ c = '-' ∨ c = '.' then
      if acc = [] then some ([], raw) else getSchemeLoop raw (c :: acc) cs
    else if c = ':' then
      if acc = [] then none else some (acc.reverse, cs)
    else some ([], raw)

/-- Function `getScheme` of `net/url`. -/
def getScheme (raw : List Char) : Option (List Char × List Char) :=
  getSchemeLoop raw [] raw

/-- A letter or a digit of ASCII, given by its code. -/
def isAlnum (b : Nat) : Bool :=
  ('a'.toNat ≤ b && b ≤ 'z'.toNat) || ('A'.toNat ≤ b && b ≤ 'Z'.toNat) ||
    ('0'.toNat ≤ b && b ≤ '9'.toNat)

/-- Function `ishex` of `net/url`. -/
def ishex (c : Char) : Bool :=
  ('0'.toNat ≤ c.toNat && c.toNat ≤ '9'.toNat) || ('a'.toNat ≤ c.toNat && c.toNat ≤ 'f'.toNat) ||
    ('A'.toNat ≤ c.toNat && c.toNat ≤ 'F'.toNat)

/-- Function `unhex` of `net/url`. -/
def unhex (c : Char) : Nat :=
  if '0'.toNat ≤ c.toNat ∧ c.toNat ≤ '9'.toNat then c.toNat - '0'.toNat
  else if 'a'.toNat ≤ c.toNat ∧ c.toNat ≤ 'f'.toNat then c.toNat - 'a'.toNat + 10
  else if 'A'.toNat ≤ c.toNat ∧ c.toNat ≤ 'F'.toNat then c.toNat - 'A'.toNat + 10
  else 0

/-- Function `shouldEscape` of `net/url` in the mode `encodeHost`, on a byte: letters,
digits, the sub-delimiters, the colon, the brackets, the angle brackets, the double
quote (34), the apostrophe (39) and the marks need no escape. -/
def shouldEscapeHost (b : Nat) : Bool :=
  !(isAlnum b || "!$&()*+,;=:[]<>-_.~".data.any (fun c => c.toNat == b) || b == 34 || b == 39)

/-- The modes of `unescape` that `url.Parse` uses. -/
inductive encoding where
  | encodePath
  | encodeUserPassword
  | encodeHost
  | encodeZone
  | encodeFragment
deriving DecidableEq

/-- Function `unescape` of `net/url` returns no error: every percent sign is followed by
two hexadecimal digits; in a host an escape stands for a byte from 0x80 on or is %25,
and no ASCII character is one that needs an escape; in a zone an escape stands for a
byte allowed in a host, a space or is %25. -/
def unescapeOk (mode : encoding) : List Char → Bool
  | [] => true
  | c :: rest =>
    if c = '%' then
      match rest with
      | h1 :: h2 :: rest2 =>
        if !(ishex h1 && ishex h2) then false
        else if mode = encoding.encodeHost && unhex h1 < 8 && !(h1 = '2' && h2 = '5') then false
        else if mode = encoding.encodeZone && !(h1 = '2' && h2 = '5')
            && unhex h1 * 16 + unhex h2 != 32 && shouldEscapeHost (unhex h1 * 16 + unhex h2) then
          false
        else unescapeOk mode rest2
      | _ => false
    else if (mode = encoding.encodeHost || mode = encoding.encodeZone) && c.toNat < 0x80
        && shouldEscapeHost c.toNat then false
    else unescapeOk mode rest

/-- The part of a string after the last occurrence of a character. -/
def afterLast (sep : Char) (s : List Char) : List Char :=
  (s.reverse.takeWhile (fun c => c != sep)).reverse

/-- The part of a string before the last occurrence of a character. -/
def beforeLast (sep : Char) (s : List Char) : List Char :=
  ((s.reverse.dropWhile (fun c => c != sep)).drop 1).reverse

/-- The index of the first occurrence of %25 (`strings.Index`). -/
def indexZone : List Char → Option Nat
  | [] => none
  | c :: cs => if (c :: cs).take 3 = ['%', '2', '5'] then some 0 else (indexZone cs).map (· + 1)

/-- Function `validOptionalPort` of `net/url`: empty, or a colon followed by digits. -/
def validOptionalPort (port : List Char) : Bool :=
  match port with
  | [] => true
  | c :: ds => c == ':' && ds.all (fun d => '0'.toNat ≤ d.toNat && d.toNat ≤ '9'.toNat)

/-- Function `validUserinfo` of `net/url`. -/
def validUserinfo (s : List Char) : Bool :=
  s.all (fun c => isAlnum c.toNat || "-._:~!$&()*+,;=%@".data.contains c || c.toNat == 39)

/-- Function `parseHost` of `net/url` returns no error. -/
def parseHostOk (host : List Char) : Bool :=
  if host.head? = some '[' then
    if !host.contains ']' then false
    else if !validOptionalPort (afterLast ']' host) then false
    else
      match indexZone (beforeLast ']' host) with
      | some zone =>
        unescapeOk encoding.encodeHost ((beforeLast ']' host).take zone)
          && unescapeOk encoding.encodeZone ((beforeLast ']' host).drop zone)
          && unescapeOk encoding.encodeHost (host.drop (beforeLast ']' host).length)
      | none => unescapeOk encoding.encodeHost host
  else if host.contains ':' && !validOptionalPort (':' :: afterLast ':' host) then false
  else unescapeOk encoding.encodeHost host

/-- Function `parseAuthority` of `net/url`: none for an error, else whether the host is
not empty. -/
def parseAuthority (authority : List Char) : Option Bool :=
  let host := if authority.contains '@' then afterLast '@' authority else authority
  if !parseHostOk host then none
  else if !authority.contains '@' then some (host != [])
  else
    let userinfo := beforeLast '@' authority
    if !validUserinfo userinfo then none
    else if !userinfo.contains ':' then
      if unescapeOk encoding.encodeUserPassword userinfo then some (host != []) else none
    else if unescapeOk encoding.encodeUserPassword (cutBefore ':' userinfo)
        && unescapeOk encoding.encodeUserPassword ((cutFrom ':' userinfo).drop 1) then
      some (host != [])
    else none

/-- Function `parse` of `net/url`, not via a request, on a string without fragment. -/
def parse (u : List Char) : Option URL :=
  if stringContainsCTLByte u then none
  else if u = ['*'] then some ⟨false, false⟩
  else
    match getScheme u with
    | none => none
    | some (scheme, rest0) =>
      let rest := cutBefore '?' rest0
      if rest.head? ≠ some '/' ∧ scheme ≠ [] then some ⟨true, false⟩
      else if rest.head? ≠ some '/' ∧ (cutBefore '/' rest).contains ':' then none
      else if (scheme ≠ [] ∨ rest.take 3 ≠ ['/', '/', '/']) ∧ rest.take 2 = ['/', '/'] then
        match parseAuthority (cutBefore '/' (rest.drop 2)) with
        | none => none
        | some hasHost =>
          if unescapeOk encoding.encodePath (cutFrom '/' (rest.drop 2)) then
            some ⟨scheme != [], hasHost⟩
          else none
      else if unescapeOk encoding.encodePath rest then some ⟨scheme != [], false⟩
      else none

/-- Function `url.Parse`: the fragment is cut off and parsed after the rest. -/
def urlParse (rawURL : List Char) : Option URL :=
  match parse (cutBefore '#' rawURL) with
  | none => none
  | some url =>
    if (cutFrom '#' rawURL).drop 1 = [] then some url
    else if unescapeOk encoding.encodeFragment ((cutFrom '#' rawURL).drop 1) then some url
    else none

/-- Function `htmlEscape` of `net/http`. -/
def htmlEscape (s : List Char) : List Char :=
  s.flatMap (fun c =>
    if c = '&' then "&amp;".data
    else if c = '<' then "&lt;".data
    else if c = '>' then "&gt;".data
    else if c = Char.ofNat 34 then "&#34;".data
    else if c = Char.ofNat 39 then "&#39;".data
    else [c])

/-- Function `http.StatusText` on the redirection codes. -/
def StatusText (code : Nat) : String :=
  if code = 300 then "Multiple Choices"
  else if code = 301 then "Moved Permanently"
  else if code = 302 then "Found"
  else if code = 303 then "See Other"
  else if code = 304 then "Not Modified"
  else if code = 305 then "Use Proxy"
  else if code = 307 then "Temporary Redirect"
  else if code = 308 then "Permanent Redirect"
  else ""

/-- The reference instance: `url.Parse` as above, and the body `http.Redirect` writes
for a GET, a link to the target. -/
def stdLib : Lib where
  Parse := fun s =>
    match urlParse s.data with
    | none => .error "parse"
    | some u => .ok u
  redirectBody := fun method target code =>
    if method = "GET" then
      "<a href=\"" ++ String.mk (htmlEscape target.data) ++ "\">" ++ StatusText code ++ "</a>.\n\n"
    else ""

/-! ## Requests and tables used in the examples -/

/-- The form of a request whose body carries one alias field and one url field. -/
def formOf (aliasName url : String) : Values :=
  fun key => if key = "alias" then [aliasName] else if key = "url" then [url] else []

/-- No field at all. -/
def noValues : Values := fun _ => []

/-- A POST to /create whose body carries the two fields, without query string. -/
def postCreate (aliasName url : String) : Request :=
  { Method := "POST", Path := "/create", Query := noValues, ParseForm := none,
    Form := formOf aliasName url }

/-- A GET of a path, without query string or body. -/
def getPath (p : String) : Request :=
  { Method := "GET", Path := p, Query := noValues, ParseForm := none, Form := noValues }

/-- A table with a single entry. -/
def singleEntry (aliasName url : String) : router :=
  ⟨Function.update newRouter.urlAliasPairs aliasName (some url)⟩

/-- A request to /create that fails every check its method lets it reach: the form
does not parse, there is no alias field, and the url field is a line feed. -/
def failsAll (method : String) : Request :=
  { Method := method, Path := "/create", Query := noValues,
    ParseForm := some "invalid URL escape \"%zz\"",
    Form := fun key => if key = "url" then ["\n"] else [] }

/-! ## The wording of the claims -/

/-- A request passes the four checks of create: the method is POST, the form parses,
the alias field is not empty, the url field parses. -/
def passesValidation (L : Lib) (req : Request) : Prop :=
  req.Method = MethodPost ∧ req.ParseForm = none ∧ Get req.Form "alias" ≠ "" ∧
    ∃ u, L.Parse (Get req.Form "url") = .ok u

/-- The path with exactly one leading slash stripped, as claims C4 and C10 word the key. -/
def stripOneSlash (p : String) : String :=
  match p.data with
  | '/' :: cs => ⟨cs⟩
  | _ => p

/-- A run of slashes. -/
def slashes (n : Nat) : String := ⟨List.replicate n '/'⟩

/-! ## Lemmas -/

theorem TrimLeft_slash_data (p : String) :
    (TrimLeft p "/").data = p.data.dropWhile (fun c => c == '/') := by
  show p.data.dropWhile (fun c => ['/'].contains c) = p.data.dropWhile (fun c => c == '/')
  congr 1
  funext c
  show List.elem c ['/'] = (c == '/')
  cases h : c == '/' <;> simp [List.elem, h]

theorem dropWhile_slash_self (k : List Char) (hk : k.head? ≠ some '/') :
    k.dropWhile (fun c => c == '/') = k := by
  cases k with
  | nil => rfl
  | cons c cs =>
    have hc : (c == '/') = false := by simpa using hk
    simp [List.dropWhile, hc]

theorem dropWhile_slash_replicate (n : Nat) (k : List Char) (hk : k.head? ≠ some '/') :
    (List.replicate n '/' ++ k).dropWhile (fun c => c == '/') = k := by
  induction n with
  | zero => simpa using dropWhile_slash_self k hk
  | succ n ih => simpa [List.replicate_succ, List.dropWhile] using ih

/-- Trimming a run of slashes followed by a string that does not start with a slash
leaves that string. -/
theorem TrimLeft_slashes (n : Nat) (k : String) (hk : k.data.head? ≠ some '/') :
    TrimLeft (slashes n ++ k) "/" = k := by
  have h := TrimLeft_slash_data (slashes n ++ k)
  have h2 : (slashes n ++ k).data = List.replicate n '/' ++ k.data := by
    simp [slashes, String.data_append]
  rw [h2, dropWhile_slash_replicate n k.data hk] at h
  exact String.ext h

/-- Every path is a run of slashes followed by a string that does not start with one. -/
theorem path_decomposition (p : String) :
    ∃ n k, p = slashes n ++ k ∧ k.data.head? ≠ some '/' := by
  suffices h : ∀ l : List Char, ∃ n k, l = List.replicate n '/' ++ k ∧ k.head? ≠ some '/' by
    obtain ⟨n, k, h1, h2⟩ := h p.data
    refine ⟨n, ⟨k⟩, ?_, h2⟩
    apply String.ext
    simpa [slashes, String.data_append] using h1
  intro l
  induction l with
  | nil => exact ⟨0, [], rfl, by simp⟩
  | cons c cs ih =>
    by_cases hc : c = '/'
    · obtain ⟨n, k, h1, h2⟩ := ih
      exact ⟨n + 1, k, by simp [List.replicate_succ, hc, h1], h2⟩
    · exact ⟨0, c :: cs, rfl, by simpa using hc⟩

theorem slash_append_ne_create (aliasName : String) (h : aliasName ≠ "create") :
    "/" ++ aliasName ≠ "/create" := by
  intro he
  apply h
  have h1 := congrArg String.data he
  apply String.ext
  simpa [String.data_append] using h1

/-- A string of ASCII characters is written as it is. -/
theorem hexEscapeNonASCII_ascii (l : List Char) (h : ∀ c ∈ l, c.toNat < 0x80) :
    hexEscapeNonASCII l = l := by
  induction l with
  | nil => rfl
  | cons c cs ih =>
    have hc : c.toNat < 0x80 := h c (List.mem_cons_self c cs)
    have hcs : ∀ d ∈ cs, d.toNat < 0x80 := fun d hd => h d (List.mem_cons_of_mem c hd)
    have ih2 := ih hcs
    unfold hexEscapeNonASCII at ih2 ⊢
    simp only [List.flatMap_cons, hc, if_true, ih2]
    rfl

/-- A target in which `url.Parse` finds a scheme or a host is written unchanged. -/
theorem redirectTarget_absolute (L : Lib) (oldpath url : String) (u : URL)
    (hparse : L.Parse url = .ok u) (habs : u.hasScheme = true ∨ u.hasHost = true) :
    redirectTarget L oldpath url = url := by
  unfold redirectTarget
  rw [hparse]
  rcases habs with h | h <;> simp [h]

/-- The outcome of create on a request that passes its four checks. -/
theorem create_of_passesValidation (L : Lib) (r : router) (req : Request)
    (hp : req.Path = "/create") (hv : passesValidation L req) :
    ServeHTTP L r req =
      (⟨Function.update r.urlAliasPairs (Get req.Form "alias") (some (Get req.Form "url"))⟩,
       ⟨StatusCreated, none,
        "/" ++ Get req.Form "alias" ++ " redirects to " ++ Get req.Form "url"⟩) := by
  obtain ⟨hm, hf, ha, u, hu⟩ := hv
  simp [ServeHTTP, handleCreateURLAliasPair, hp, hm, hf, ha, hu]

/-- A create answered with 201 passed the four checks. -/
theorem passesValidation_of_created (L : Lib) (r : router) (req : Request)
    (hp : req.Path = "/create") (h : (ServeHTTP L r req).2.status = 201) :
    passesValidation L req := by
  unfold passesValidation
  simp only [ServeHTTP, hp, if_true, handleCreateURLAliasPair] at h
  by_cases hm : req.Method = MethodPost
  · cases hf : req.ParseForm with
    | some e => simp [hm, hf, StatusInternalServerError] at h
    | none =>
      by_cases ha : Get req.Form "alias" = ""
      · simp [hm, hf, ha, StatusBadRequest] at h
      · cases hu : L.Parse (Get req.Form "url") with
        | error e => simp [hm, hf, ha, hu, StatusBadRequest] at h
        | ok u => exact ⟨hm, rfl, ha, u, rfl⟩
  · simp [hm, StatusMethodNotAllowed] at h

/-! ## Claims -/

/-- C1, as amended: for every table, every alias that does not begin with a slash and
is not "create", and every url, when a POST to /create with the form fields alias and
url is answered with 201, a following request whose path is "/" followed by the alias
is answered with status 301 and a Location header equal to url whenever url is ASCII
and `url.Parse` finds a scheme or a host in it; for every url the Location header is
the target as `http.Redirect` writes it, rewritten against the request path when it has
neither scheme nor host, and with its bytes from 0x80 on percent-escaped. -/
theorem roundtrip_create_redirect (L : Lib) (r : router) (aliasName url : String)
    (create req : Request)
    (hslash : aliasName.data.head? ≠ some '/') (hcreate : aliasName ≠ "create")
    (hp : create.Path = "/create")
    (ha : Get create.Form "alias" = aliasName) (hu : Get create.Form "url" = url)
    (h201 : (ServeHTTP L r create).2.status = 201)
    (hreq : req.Path = "/" ++ aliasName) :
    (ServeHTTP L (ServeHTTP L r create).1 req).2.status = 301 ∧
    (ServeHTTP L (ServeHTTP L r create).1 req).2.location
      = some ⟨hexEscapeNonASCII (redirectTarget L req.Path url).data⟩ ∧
    (∀ u, L.Parse url = .ok u → (u.hasScheme = true ∨ u.hasHost = true) →
      (∀ c ∈ url.data, c.toNat < 0x80) →
      (ServeHTTP L (ServeHTTP L r create).1 req).2.location = some url) := by
  have hv := passesValidation_of_created L r create hp h201
  rw [create_of_passesValidation L r create hp hv, ha, hu]
  have hne : req.Path ≠ "/create" := hreq ▸ slash_append_ne_create aliasName hcreate
  have hkey : TrimLeft req.Path "/" = aliasName := by
    rw [hreq]
    exact TrimLeft_slashes 1 aliasName hslash
  simp only [ServeHTTP, hne, if_false, handleRedirect]
  rw [hkey, Function.update_same]
  refine ⟨rfl, rfl, ?_⟩
  intro u hparse habs hascii
  show some (String.mk (hexEscapeNonASCII (redirectTarget L req.Path url).data)) = some url
  rw [redirectTarget_absolute L req.Path url u hparse habs, hexEscapeNonASCII_ascii url.data hascii]

/-- Witness of C1: alias go and url https://golang.org on the empty table, then GET /go. -/
theorem roundtrip_create_redirect_witness :
    (ServeHTTP stdLib (ServeHTTP stdLib newRouter (postCreate "go" "https://golang.org")).1
        (getPath "/go")).2.status = 301 ∧
    (ServeHTTP stdLib (ServeHTTP stdLib newRouter (postCreate "go" "https://golang.org")).1
        (getPath "/go")).2.location = some "https://golang.org" :=
  ⟨(roundtrip_create_redirect stdLib newRouter "go" "https://golang.org"
      (postCreate "go" "https://golang.org") (getPath "/go")
      (by decide) (by decide) rfl rfl rfl (by decide) rfl).1,
   (roundtrip_create_redirect stdLib newRouter "go" "https://golang.org"
      (postCreate "go" "https://golang.org") (getPath "/go")
      (by decide) (by decide) rfl rfl rfl (by decide) rfl).2.2
      ⟨true, true⟩ rfl (Or.inl rfl) (by decide)⟩

/-- C1 as stated fails.  An alias "create" is created with 201 and GET /create is
answered 405; an alias "/x" is created with 201 and GET //x is answered 404; with the
url golang.org, which has neither scheme nor host, alias go is created with 201 and
GET /go is answered 301 with the Location /golang.org, not the url; with the url
https://golang.org/é alias go is created with 201 and GET /go is answered 301 with the
Location https://golang.org/%c3%a9, not the url. -/
theorem roundtrip_counterexample :
    ((ServeHTTP stdLib newRouter (postCreate "create" "https://golang.org")).2.status = 201 ∧
     (ServeHTTP stdLib (ServeHTTP stdLib newRouter (postCreate "create" "https://golang.org")).1
        (getPath "/create")).2.status = 405) ∧
    ((ServeHTTP stdLib newRouter (postCreate "/x" "https://golang.org")).2.status = 201 ∧
     (ServeHTTP stdLib (ServeHTTP stdLib newRouter (postCreate "/x" "https://golang.org")).1
        (getPath "//x")).2.status = 404) ∧
    ((ServeHTTP stdLib newRouter (postCreate "go" "golang.org")).2.status = 201 ∧
     (ServeHTTP stdLib (ServeHTTP stdLib newRouter (postCreate "go" "golang.org")).1
        (getPath "/go")).2.status = 301 ∧
     (ServeHTTP stdLib (ServeHTTP stdLib newRouter (postCreate "go" "golang.org")).1
        (getPath "/go")).2.location = some "/golang.org") ∧
    ((ServeHTTP stdLib newRouter (postCreate "go" "https://golang.org/é")).2.status = 201 ∧
     (ServeHTTP stdLib (ServeHTTP stdLib newRouter (postCreate "go" "https://golang.org/é")).1
        (getPath "/go")).2.status = 301 ∧
     (ServeHTTP stdLib (ServeHTTP stdLib newRouter (postCreate "go" "https://golang.org/é")).1
        (getPath "/go")).2.location = some "https://golang.org/%c3%a9") := by
  decide

/-- C2: for every table, alias and urls u1 and u2, when two successive requests to
/create for the same alias, with u1 and then u2, both pass validation, the second is
answered with 201, the table afterwards maps the alias to u2 (and so not to u1 when
the urls differ), and every later redirect whose key is the alias answers with the
redirect to u2. -/
theorem last_write_wins (L : Lib) (r : router) (aliasName u1 u2 : String) (c1 c2 : Request)
    (hp1 : c1.Path = "/create") (hv1 : passesValidation L c1)
    (ha1 : Get c1.Form "alias" = aliasName) (hu1 : Get c1.Form "url" = u1)
    (hp2 : c2.Path = "/create") (hv2 : passesValidation L c2)
    (ha2 : Get c2.Form "alias" = aliasName) (hu2 : Get c2.Form "url" = u2) :
    (ServeHTTP L r c1).2.status = 201 ∧
    (ServeHTTP L (ServeHTTP L r c1).1 c2).2.status = 201 ∧
    (ServeHTTP L (ServeHTTP L r c1).1 c2).1.urlAliasPairs aliasName = some u2 ∧
    (u1 ≠ u2 → (ServeHTTP L (ServeHTTP L r c1).1 c2).1.urlAliasPairs aliasName ≠ some u1) ∧
    ∀ req : Request, TrimLeft req.Path "/" = aliasName →
      handleRedirect L (ServeHTTP L (ServeHTTP L r c1).1 c2).1 req
        = ((ServeHTTP L (ServeHTTP L r c1).1 c2).1, Redirect L req u2 301) := by
  rw [create_of_passesValidation L r c1 hp1 hv1, create_of_passesValidation L _ c2 hp2 hv2,
    ha1, hu1, ha2, hu2]
  refine ⟨rfl, rfl, ?_, ?_, ?_⟩
  · simp
  · intro hne
    simpa using Ne.symm hne
  · intro req hkey
    simp only [handleRedirect]
    rw [hkey, Function.update_same]
    rfl

/-- Witness of C2: alias go, first https://golang.org, then https://go.dev. -/
theorem last_write_wins_witness :
    (ServeHTTP stdLib newRouter (postCreate "go" "https://golang.org")).2.status = 201 ∧
    (ServeHTTP stdLib (ServeHTTP stdLib newRouter (postCreate "go" "https://golang.org")).1
      (postCreate "go" "https://go.dev")).2.status = 201 ∧
    (ServeHTTP stdLib (ServeHTTP stdLib newRouter (postCreate "go" "https://golang.org")).1
      (postCreate "go" "https://go.dev")).1.urlAliasPairs "go" = some "https://go.dev" ∧
    ("https://golang.org" ≠ "https://go.dev" →
      (ServeHTTP stdLib (ServeHTTP stdLib newRouter (postCreate "go" "https://golang.org")).1
        (postCreate "go" "https://go.dev")).1.urlAliasPairs "go" ≠ some "https://golang.org") ∧
    ∀ req : Request, TrimLeft req.Path "/" = "go" →
      handleRedirect stdLib
          (ServeHTTP stdLib (ServeHTTP stdLib newRouter (postCreate "go" "https://golang.org")).1
            (postCreate "go" "https://go.dev")).1 req
        = ((ServeHTTP stdLib (ServeHTTP stdLib newRouter (postCreate "go" "https://golang.org")).1
            (postCreate "go" "https://go.dev")).1, Redirect stdLib req "https://go.dev" 301) :=
  last_write_wins stdLib newRouter "go" "https://golang.org" "https://go.dev"
    (postCreate "go" "https://golang.org") (postCreate "go" "https://go.dev")
    rfl ⟨rfl, rfl, by decide, _, rfl⟩ rfl rfl rfl ⟨rfl, rfl, by decide, _, rfl⟩ rfl rfl

/-- C3: for every POST to /create whose form parses, whose alias field is not empty
and whose url field parses, the response has status 201 and the body "/" followed by
the alias, " redirects to " and the url, and the table afterwards maps the alias to
the url. -/
theorem create_success (L : Lib) (r : router) (req : Request) (u : URL)
    (hp : req.Path = "/create") (hm : req.Method = "POST") (hf : req.ParseForm = none)
    (ha : Get req.Form "alias" ≠ "") (hu : L.Parse (Get req.Form "url") = .ok u) :
    (ServeHTTP L r req).2.status = 201 ∧
    (ServeHTTP L r req).2.body =
      "/" ++ Get req.Form "alias" ++ " redirects to " ++ Get req.Form "url" ∧
    (ServeHTTP L r req).1.urlAliasPairs (Get req.Form "alias") = some (Get req.Form "url") := by
  rw [create_of_passesValidation L r req hp ⟨hm, hf, ha, u, hu⟩]
  exact ⟨rfl, rfl, by simp⟩

/-- Witness of C3: alias go and url https://golang.org, the body being
"/go redirects to https://golang.org". -/
theorem create_success_witness :
    (ServeHTTP stdLib newRouter (postCreate "go" "https://golang.org")).2.status = 201 ∧
    (ServeHTTP stdLib newRouter (postCreate "go" "https://golang.org")).2.body =
      "/go redirects to https://golang.org" ∧
    (ServeHTTP stdLib newRouter (postCreate "go" "https://golang.org")).1.urlAliasPairs "go"
      = some "https://golang.org" :=
  create_success stdLib newRouter (postCreate "go" "https://golang.org") ⟨true, true⟩
    rfl rfl rfl (by decide) rfl

/-- C4, as amended: for every table and every request, of any method, whose path is
not exactly /create, if the path with all its leading slashes removed (the path is a
run of slashes followed by a key that does not begin with one) is not a key of the
table, then the response has status 404 and body "invalid alias", and the table is
unchanged. -/
theorem unknown_alias (L : Lib) (r : router) (req : Request) (n : Nat) (key : String)
    (hp : req.Path ≠ "/create")
    (hpath : req.Path = slashes n ++ key) (hkey : key.data.head? ≠ some '/')
    (habs : r.urlAliasPairs key = none) :
    ServeHTTP L r req = (r, ⟨404, none, "invalid alias"⟩) := by
  have hk : TrimLeft req.Path "/" = key := hpath ▸ TrimLeft_slashes n key hkey
  simp only [ServeHTTP, hp, if_false, handleRedirect]
  rw [hk, habs]
  rfl

/-- Witness of C4: GET //nothing on a table that only knows the alias go. -/
theorem unknown_alias_witness :
    ServeHTTP stdLib (singleEntry "go" "https://golang.org") (getPath "//nothing")
      = (singleEntry "go" "https://golang.org", ⟨404, none, "invalid alias"⟩) :=
  unknown_alias stdLib (singleEntry "go" "https://golang.org") (getPath "//nothing") 2 "nothing"
    (by decide) (by decide) (by decide) (by decide)

/-- C4 as stated fails: the path //x is not /create, and with its leading slash removed
it is /x, which is not a key of the table that maps x to https://golang.org, yet the
response is the redirect 301 and not 404. -/
theorem unknown_alias_counterexample :
    (getPath "//x").Path ≠ "/create" ∧
    stripOneSlash (getPath "//x").Path = "/x" ∧
    (singleEntry "x" "https://golang.org").urlAliasPairs
      (stripOneSlash (getPath "//x").Path) = none ∧
    (ServeHTTP stdLib (singleEntry "x" "https://golang.org") (getPath "//x")).2.status = 301 ∧
    (ServeHTTP stdLib (singleEntry "x" "https://golang.org") (getPath "//x")).2.location
      = some "https://golang.org" := by
  decide

/-- C5: for every table and every request whose path is exactly /create and whose
method is not POST, whatever its form and query, the response has status 405 and an
empty body, no Location header is set, and the table is unchanged. -/
theorem wrong_method (L : Lib) (r : router) (req : Request)
    (hp : req.Path = "/create") (hm : req.Method ≠ "POST") :
    ServeHTTP L r req = (r, ⟨405, none, ""⟩) := by
  have hm2 : req.Method ≠ MethodPost := hm
  simp only [ServeHTTP, hp, if_true, handleCreateURLAliasPair, hm2, ne_eq, not_false_eq_true]
  rfl

/-- Witness of C5: GET /create with the fields alias and url in its form and query, on a
table in which the alias create is stored. -/
theorem wrong_method_witness :
    ServeHTTP stdLib (singleEntry "create" "https://golang.org")
        ⟨"GET", "/create", formOf "go" "https://go.dev", none, formOf "go" "https://go.dev"⟩
      = (singleEntry "create" "https://golang.org", ⟨405, none, ""⟩) :=
  wrong_method stdLib (singleEntry "create" "https://golang.org")
    ⟨"GET", "/create", formOf "go" "https://go.dev", none, formOf "go" "https://go.dev"⟩
    rfl (by decide)

/-- C6: for every POST to /create whose form parses and whose alias field is absent
or empty, whatever the url field, the response has status 400 and body exactly
"invalid alias: ". -/
theorem missing_alias (L : Lib) (r : router) (req : Request)
    (hp : req.Path = "/create") (hm : req.Method = "POST") (hf : req.ParseForm = none)
    (ha : req.Form "alias" = [] ∨ (req.Form "alias").head? = some "") :
    (ServeHTTP L r req).2.status = 400 ∧ (ServeHTTP L r req).2.body = "invalid alias: " := by
  have hget : Get req.Form "alias" = "" := by
    unfold Get
    rcases ha with h | h
    · simp [h]
    · cases hl : req.Form "alias" with
      | nil => rfl
      | cons x xs =>
        rw [hl] at h
        simpa using h
  have hm2 : req.Method = MethodPost := hm
  have key : ServeHTTP L r req = (r, ⟨StatusBadRequest, none, "invalid alias: " ++ ""⟩) := by
    simp only [ServeHTTP, hp, if_true, handleCreateURLAliasPair, hm2, ne_eq, not_true_eq_false,
      if_false, hf, hget]
  rw [key]
  exact ⟨rfl, rfl⟩

/-- Witness of C6: a POST to /create without alias field and with a url field that does
not parse (a line feed). -/
theorem missing_alias_witness :
    (ServeHTTP stdLib newRouter
      ⟨"POST", "/create", noValues, none, fun key => if key = "url" then ["\n"] else []⟩).2.status
      = 400 ∧
    (ServeHTTP stdLib newRouter
      ⟨"POST", "/create", noValues, none, fun key => if key = "url" then ["\n"] else []⟩).2.body
      = "invalid alias: " :=
  missing_alias stdLib newRouter
    ⟨"POST", "/create", noValues, none, fun key => if key = "url" then ["\n"] else []⟩
    rfl rfl rfl (Or.inl (by decide))

/-- C7: for every POST to /create whose form parses, whose alias field is not empty
and whose url form field fails to parse, the response has status 400 and the body
"invalid url: " followed by the url parameter of the query, not the form value that was
validated: the echoed value is empty when the query has no url parameter. -/
theorem invalid_url (L : Lib) (r : router) (req : Request) (e : String)
    (hp : req.Path = "/create") (hm : req.Method = "POST") (hf : req.ParseForm = none)
    (ha : Get req.Form "alias" ≠ "") (hu : L.Parse (Get req.Form "url") = .error e) :
    (ServeHTTP L r req).2.status = 400 ∧
    (ServeHTTP L r req).2.body = "invalid url: " ++ Get req.Query "url" ∧
    (req.Query "url" = [] → (ServeHTTP L r req).2.body = "invalid url: ") := by
  have hm2 : req.Method = MethodPost := hm
  have key : ServeHTTP L r req
      = (r, ⟨StatusBadRequest, none, "invalid url: " ++ Get req.Query "url"⟩) := by
    simp only [ServeHTTP, hp, if_true, handleCreateURLAliasPair, hm2, ne_eq, not_true_eq_false,
      if_false, hf, ha, hu]
  rw [key]
  refine ⟨rfl, rfl, ?_⟩
  intro hq
  simp [Get, hq]

/-- Witness of C7: the url, a line feed, is sent only in the body, and the body of the
response echoes nothing. -/
theorem invalid_url_witness :
    (ServeHTTP stdLib newRouter (postCreate "go" "\n")).2.status = 400 ∧
    (ServeHTTP stdLib newRouter (postCreate "go" "\n")).2.body
      = "invalid url: " ++ Get (postCreate "go" "\n").Query "url" ∧
    ((postCreate "go" "\n").Query "url" = [] →
      (ServeHTTP stdLib newRouter (postCreate "go" "\n")).2.body = "invalid url: ") :=
  invalid_url stdLib newRouter (postCreate "go" "\n")
    "parse" rfl rfl rfl (by decide) rfl

/-- C8: create applies its checks in the order method, form parse, alias, url, and the
first failing check decides the response whatever the later checks would say: a method
other than POST gives 405 with an empty body; else a form parse error gives 500 with
the message of the error as body; else an empty alias gives 400 "invalid alias: "; else
a url that fails to parse gives 400 "invalid url: " followed by the url parameter of
the query.  The table is unchanged in all four cases. -/
theorem validation_order (L : Lib) (r : router) (req : Request) (hp : req.Path = "/create") :
    (req.Method ≠ "POST" → ServeHTTP L r req = (r, ⟨405, none, ""⟩)) ∧
    (req.Method = "POST" → ∀ e, req.ParseForm = some e →
      ServeHTTP L r req = (r, ⟨500, none, e⟩)) ∧
    (req.Method = "POST" → req.ParseForm = none → Get req.Form "alias" = "" →
      ServeHTTP L r req = (r, ⟨400, none, "invalid alias: "⟩)) ∧
    (req.Method = "POST" → req.ParseForm = none → Get req.Form "alias" ≠ "" →
      ∀ e, L.Parse (Get req.Form "url") = .error e →
      ServeHTTP L r req = (r, ⟨400, none, "invalid url: " ++ Get req.Query "url"⟩)) := by
  refine ⟨?_, ?_, ?_, ?_⟩
  · intro hm
    have hm2 : req.Method ≠ MethodPost := hm
    simp only [ServeHTTP, hp, if_true, handleCreateURLAliasPair, hm2, ne_eq, not_false_eq_true]
    rfl
  · intro hm e hf
    have hm2 : req.Method = MethodPost := hm
    simp only [ServeHTTP, hp, if_true, handleCreateURLAliasPair, hm2, ne_eq, not_true_eq_false,
      if_false, hf]
    rfl
  · intro hm hf ha
    have hm2 : req.Method = MethodPost := hm
    simp only [ServeHTTP, hp, if_true, handleCreateURLAliasPair, hm2, ne_eq, not_true_eq_false,
      if_false, hf, ha]
    rfl
  · intro hm hf ha e hu
    have hm2 : req.Method = MethodPost := hm
    simp only [ServeHTTP, hp, if_true, handleCreateURLAliasPair, hm2, ne_eq, not_true_eq_false,
      if_false, hf, ha, hu]
    rfl

/-- Witness of C8: the request that fails all four checks is answered 405, and 500 with
the parse error once its method is POST. -/
theorem validation_order_witness :
    ServeHTTP stdLib newRouter (failsAll "GET") = (newRouter, ⟨405, none, ""⟩) ∧
    ServeHTTP stdLib newRouter (failsAll "POST")
      = (newRouter, ⟨500, none, "invalid URL escape \"%zz\""⟩) :=
  ⟨(validation_order stdLib newRouter (failsAll "GET") rfl).1 (by decide),
   (validation_order stdLib newRouter (failsAll "POST") rfl).2.1 rfl _ rfl⟩

/-- C9: the table is mutated only by a successful create.  For every table and every
request, a response whose status is not 201 leaves the table as it was; a request
handled by redirect leaves it as it was and is answered 301 or 404; and when the status
is 201 every key other than the alias of the request keeps its value or absence. -/
theorem table_frame (L : Lib) (r : router) (req : Request) :
    ((ServeHTTP L r req).2.status ≠ 201 → (ServeHTTP L r req).1 = r) ∧
    (req.Path ≠ "/create" → (ServeHTTP L r req).1 = r ∧
      ((ServeHTTP L r req).2.status = 301 ∨ (ServeHTTP L r req).2.status = 404)) ∧
    ((ServeHTTP L r req).2.status = 201 → ∀ key, key ≠ Get req.Form "alias" →
      (ServeHTTP L r req).1.urlAliasPairs key = r.urlAliasPairs key) := by
  by_cases hp : req.Path = "/create"
  · by_cases hv : passesValidation L req
    · rw [create_of_passesValidation L r req hp hv]
      refine ⟨fun h => absurd rfl h, fun h => absurd hp h, ?_⟩
      intro _ key hkey
      exact Function.update_noteq hkey _ _
    · have hs : (ServeHTTP L r req).2.status ≠ 201 :=
        fun h => hv (passesValidation_of_created L r req hp h)
      refine ⟨?_, fun h => absurd hp h, fun h => absurd h hs⟩
      intro _
      simp only [ServeHTTP, hp, if_true, handleCreateURLAliasPair]
      by_cases hm : req.Method = MethodPost
      · cases hf : req.ParseForm with
        | some e => simp [hm]
        | none =>
          by_cases ha : Get req.Form "alias" = ""
          · simp [hm, ha]
          · cases hu : L.Parse (Get req.Form "url") with
            | error e => simp [hm, ha]
            | ok u => exact absurd ⟨hm, hf, ha, u, hu⟩ hv
      · simp [hm]
  · have hr : (ServeHTTP L r req).1 = r ∧
        ((ServeHTTP L r req).2.status = 301 ∨ (ServeHTTP L r req).2.status = 404) := by
      simp only [ServeHTTP, hp, if_false, handleRedirect]
      cases r.urlAliasPairs (TrimLeft req.Path "/") with
      | none => exact ⟨rfl, Or.inr rfl⟩
      | some u => exact ⟨rfl, Or.inl rfl⟩
    refine ⟨fun _ => hr.1, fun _ => hr, ?_⟩
    intro h
    rcases hr.2 with h1 | h1 <;> rw [h1] at h <;> exact absurd h (by decide)

/-- Witness of C9: on a table that knows the alias x, a redirect of /x, an unknown
alias and a create refused with 405 leave the table as it was, and the create of the
alias go leaves the entry of x as it was. -/
theorem table_frame_witness :
    (ServeHTTP stdLib (singleEntry "x" "https://go.dev") (getPath "/x")).1
      = singleEntry "x" "https://go.dev" ∧
    (ServeHTTP stdLib (singleEntry "x" "https://go.dev") (getPath "/y")).1
      = singleEntry "x" "https://go.dev" ∧
    (ServeHTTP stdLib (singleEntry "x" "https://go.dev") (getPath "/create")).1
      = singleEntry "x" "https://go.dev" ∧
    (ServeHTTP stdLib (singleEntry "x" "https://go.dev")
        (postCreate "go" "https://golang.org")).1.urlAliasPairs "x"
      = some "https://go.dev" :=
  ⟨(table_frame stdLib (singleEntry "x" "https://go.dev") (getPath "/x")).1 (by decide),
   (table_frame stdLib (singleEntry "x" "https://go.dev") (getPath "/y")).1 (by decide),
   (table_frame stdLib (singleEntry "x" "https://go.dev") (getPath "/create")).1 (by decide),
   (table_frame stdLib (singleEntry "x" "https://go.dev")
      (postCreate "go" "https://golang.org")).2.2 (by decide) "x" (by decide)⟩

/-- C10, as amended: for every request handled by redirect, the key looked up in the
table is the path with all its leading slashes stripped: when the path is a run of
slashes followed by a key that does not begin with one, that key is the trimmed path,
the response is 404 with body "invalid alias" if the table has no entry for it and the
redirect to its entry otherwise, and no other entry of the table is read. -/
theorem redirect_key (L : Lib) (r : router) (req : Request) (n : Nat) (key : String)
    (hpath : req.Path = slashes n ++ key) (hkey : key.data.head? ≠ some '/') :
    TrimLeft req.Path "/" = key ∧
    handleRedirect L r req =
      (match r.urlAliasPairs key with
       | none => (r, ⟨404, none, "invalid alias"⟩)
       | some redirectURL => (r, Redirect L req redirectURL 301)) := by
  have hk : TrimLeft req.Path "/" = key := hpath ▸ TrimLeft_slashes n key hkey
  refine ⟨hk, ?_⟩
  simp only [handleRedirect]
  rw [hk]
  rfl

/-- Witness of C10: for the path //x the key is x. -/
theorem redirect_key_witness :
    TrimLeft (getPath "//x").Path "/" = "x" ∧
    handleRedirect stdLib (singleEntry "x" "https://golang.org") (getPath "//x") =
      (match (singleEntry "x" "https://golang.org").urlAliasPairs "x" with
       | none => (singleEntry "x" "https://golang.org", ⟨404, none, "invalid alias"⟩)
       | some redirectURL =>
         (singleEntry "x" "https://golang.org",
          Redirect stdLib (getPath "//x") redirectURL 301)) :=
  redirect_key stdLib (singleEntry "x" "https://golang.org") (getPath "//x") 2 "x"
    (by decide) (by decide)

/-- C10 as stated fails: for the path //x, stripping exactly one slash gives /x, but
the key looked up is x: the table that maps /x is answered 404 with body
"invalid alias", and the table that maps x is answered with the redirect. -/
theorem redirect_key_counterexample :
    stripOneSlash "//x" = "/x" ∧
    TrimLeft "//x" "/" = "x" ∧
    (handleRedirect stdLib (singleEntry "/x" "https://golang.org") (getPath "//x")).2
      = ⟨404, none, "invalid alias"⟩ ∧
    (handleRedirect stdLib (singleEntry "x" "https://golang.org") (getPath "//x")).2.status
      = 301 := by
  decide

end LinkShortener
